import Mathlib

/-!
Shallow embedding of the dskit resilience toolkit (Go): the count-based
sliding window, the circuit-breaker state machine and executor, the retry
engine with its policy, and the backoff strategies.

Modelling conventions:
* Go `error` values are modelled by `GoErr`: a sentinel error (as created by
  `errors.New`) or a wrapping error (as created by `fmt.Errorf` with `%w`).
  `errIs` models `errors.Is`: identity at each step of the unwrap chain.
  A nullable Go error is `Option GoErr` (with `none` for `nil`).
* Go `any` result values are modelled by `GoVal := Int`.
* `time.Duration` and timestamps are integers (nanoseconds); `float64`
  quantities (rates, thresholds, backoff arithmetic) are rationals.
* Go `int` fields are `Int`; the window's `int32` counters are modelled as
  unbounded integers (they stay far below 2^31 for any realistic capacity).
-/

/-- Model of a Go result value passed around as `any`. -/
abbrev GoVal : Type := Int

/-- Model of a Go error value: a sentinel (from `errors.New`, identified by a
tag) or a wrapper holding an inner error, as built by `fmt.Errorf` with `%w`. -/
inductive GoErr where
  | sentinel : Nat → GoErr
  | wrap : GoErr → Nat → GoErr
deriving DecidableEq, Repr

/-- Model of Go `errors.Is(e, t)`: equality at each step of `e`'s unwrap chain. -/
def errIs : GoErr → GoErr → Bool
  | .sentinel n, t => .sentinel n == t
  | .wrap inner n, t => .wrap inner n == t || errIs inner t

/-- `context.Canceled`. -/
def contextCanceled : GoErr := .sentinel 0

/-- `context.DeadlineExceeded`. -/
def contextDeadlineExceeded : GoErr := .sentinel 1

/-- `circuitbreaker.ErrOpenState`. -/
def ErrOpenState : GoErr := .sentinel 2

/-- `circuitbreaker.ErrHalfOpenState`. -/
def ErrHalfOpenState : GoErr := .sentinel 3

/-- `retry.ErrResultPredicateRetry`. -/
def ErrResultPredicateRetry : GoErr := .sentinel 4

/-- `circuitbreaker.IsCallNotPermittedError` (on a nullable error). -/
def IsCallNotPermittedError (err : Option GoErr) : Bool :=
  match err with
  | none => false
  | some e => errIs e ErrOpenState || errIs e ErrHalfOpenState

/-- `circuitbreaker.CallOutcome`. -/
inductive CallOutcome where
  | success
  | failure
  | slowSuccess
  | slowFailure
deriving DecidableEq, Repr

/-- `circuitbreaker.CountWindow`: a ring of slots (`none` = never written) with
running counters. The head of `slots` is the ring's current position; advancing
the ring rotates the list. -/
structure CountWindow where
  slots : List (Option CallOutcome)
  successCount : Int
  failureCount : Int
  slowCallCount : Int
deriving DecidableEq, Repr

/-- `circuitbreaker.NewCountWindow`. -/
def NewCountWindow (size : Nat) : CountWindow :=
  { slots := List.replicate size none
    successCount := 0
    failureCount := 0
    slowCallCount := 0 }

/-- `CountWindow.decrementOutcome`. -/
def CountWindow.decrementOutcome (w : CountWindow) (outcome : CallOutcome) : CountWindow :=
  match outcome with
  | .success => { w with successCount := w.successCount - 1 }
  | .failure => { w with failureCount := w.failureCount - 1 }
  | .slowSuccess =>
      { w with successCount := w.successCount - 1, slowCallCount := w.slowCallCount - 1 }
  | .slowFailure =>
      { w with failureCount := w.failureCount - 1, slowCallCount := w.slowCallCount - 1 }

/-- `CountWindow.incrementOutcome`. -/
def CountWindow.incrementOutcome (w : CountWindow) (outcome : CallOutcome) : CountWindow :=
  match outcome with
  | .success => { w with successCount := w.successCount + 1 }
  | .failure => { w with failureCount := w.failureCount + 1 }
  | .slowSuccess =>
      { w with successCount := w.successCount + 1, slowCallCount := w.slowCallCount + 1 }
  | .slowFailure =>
      { w with failureCount := w.failureCount + 1, slowCallCount := w.slowCallCount + 1 }

/-- `CountWindow.RecordOutcome`: decrement the counters of the overwritten
slot (when it was ever written), write the new outcome, increment its
counters, and advance the ring. On an empty ring (capacity 0, where the Go
code would dereference a nil ring) the model is the identity. -/
def CountWindow.RecordOutcome (w : CountWindow) (outcome : CallOutcome) : CountWindow :=
  match w.slots with
  | [] => w
  | old :: rest =>
      let w1 :=
        match old with
        | some oldOutcome => w.decrementOutcome oldOutcome
        | none => w
      let w2 := w1.incrementOutcome outcome
      { w2 with slots := rest ++ [some outcome] }

/-- `CountWindow.Size`. -/
def CountWindow.Size (w : CountWindow) : Int :=
  w.successCount + w.failureCount

/-- `CountWindow.Reset`: a fresh ring of the same length, zeroed counters. -/
def CountWindow.Reset (w : CountWindow) : CountWindow :=
  { slots := List.replicate w.slots.length none
    successCount := 0
    failureCount := 0
    slowCallCount := 0 }

/-- `CountWindow.CallRates`: total calls, success rate, failure rate and slow
call rate in percent (all zero on an empty window). -/
def CountWindow.CallRates (w : CountWindow) : Int × ℚ × ℚ × ℚ :=
  let totalCalls := w.Size
  if totalCalls = 0 then (0, 0, 0, 0)
  else
    ( totalCalls
    , (w.successCount : ℚ) / (totalCalls : ℚ) * 100
    , (w.failureCount : ℚ) / (totalCalls : ℚ) * 100
    , (w.slowCallCount : ℚ) / (totalCalls : ℚ) * 100 )

/-- `circuitbreaker.State`. -/
inductive State where
  | StateClosed
  | StateHalfOpen
  | StateOpen
  | StateMetricsOnly
deriving DecidableEq, Repr

/-- `circuitbreaker.Config`. -/
structure Config where
  Window : CountWindow
  MetricsOnlyMode : Bool
  MinimumNumberOfCalls : Int
  FailureRateThreshold : ℚ
  SlowCallRateThreshold : ℚ
  SlowCallDurationThreshold : Int
  PermittedNumberOfCallsInHalfOpenState : Int
  WaitDurationInOpenState : Int
  FailOnResultPredicate : Option (GoVal → Bool)
  FailOnErrorPredicate : Option (GoErr → Bool)
  FailErrors : List GoErr
  IgnoreErrors : List GoErr

/-- `circuitbreaker.defaultConfig` (durations in nanoseconds). -/
def defaultConfig : Config :=
  { Window := NewCountWindow 100
    MetricsOnlyMode := false
    MinimumNumberOfCalls := 20
    FailureRateThreshold := 50
    SlowCallRateThreshold := 50
    SlowCallDurationThreshold := 10000000000
    PermittedNumberOfCallsInHalfOpenState := 10
    WaitDurationInOpenState := 60000000000
    FailOnResultPredicate := none
    FailOnErrorPredicate := none
    FailErrors := []
    IgnoreErrors := [] }

/-- `circuitbreaker.Option` (an option mutates the config being built). -/
def CBOption : Type := Config → Config

/-- `circuitbreaker.WithMetricsOnlyMode`. -/
def WithMetricsOnlyMode : CBOption :=
  fun c => { c with MetricsOnlyMode := true }

/-- `circuitbreaker.WithWindow`. -/
def WithWindow (window : CountWindow) : CBOption :=
  fun c => { c with Window := window }

/-- `circuitbreaker.WithMinimumNumberOfCalls`. -/
def WithMinimumNumberOfCalls (n : Int) : CBOption :=
  fun c => { c with MinimumNumberOfCalls := n }

/-- `circuitbreaker.WithFailureRateThreshold`. -/
def WithFailureRateThreshold (threshold : ℚ) : CBOption :=
  fun c => { c with FailureRateThreshold := threshold }

/-- `circuitbreaker.WithSlowCallRateThreshold`. -/
def WithSlowCallRateThreshold (threshold : ℚ) : CBOption :=
  fun c => { c with SlowCallRateThreshold := threshold }

/-- `circuitbreaker.WithSlowCallDurationThreshold`. -/
def WithSlowCallDurationThreshold (duration : Int) : CBOption :=
  fun c => { c with SlowCallDurationThreshold := duration }

/-- `circuitbreaker.WithPermittedNumberOfCallsInHalfOpenState`. -/
def WithPermittedNumberOfCallsInHalfOpenState (n : Int) : CBOption :=
  fun c => { c with PermittedNumberOfCallsInHalfOpenState := n }

/-- `circuitbreaker.WithWaitDurationInOpenState`. -/
def WithWaitDurationInOpenState (duration : Int) : CBOption :=
  fun c => { c with WaitDurationInOpenState := duration }

/-- `circuitbreaker.WithFailErrors`. -/
def WithFailErrors (errs : List GoErr) : CBOption :=
  fun c => { c with FailErrors := errs }

/-- `circuitbreaker.WithIgnoreErrors` (breaker side). -/
def WithIgnoreErrorsCB (errs : List GoErr) : CBOption :=
  fun c => { c with IgnoreErrors := errs }

/-- `circuitbreaker.circuitBreakerImpl`. The Go zero values of the
uninitialized fields (`transitionTime`, the lease counters) are 0. -/
structure circuitBreakerImpl where
  name : String
  window : CountWindow
  config : Config
  state : State
  transitionTime : Int
  halfOpenCompletedLeases : Int
  halfOpenLeases : Int

/-- `circuitbreaker.New`: apply the options to the default config and start
in `StateClosed` (the `MetricsOnlyMode` flag is not consulted). -/
def Circuitbreaker.New (name : String) (opts : List CBOption) : circuitBreakerImpl :=
  let config := opts.foldl (fun c o => o c) defaultConfig
  { name := name
    config := config
    state := .StateClosed
    window := config.Window
    transitionTime := 0
    halfOpenCompletedLeases := 0
    halfOpenLeases := 0 }

/-- `circuitBreakerImpl.setStateUnsafe` (`now` models `time.Now()`). -/
def circuitBreakerImpl.setStateUnsafe (cb : circuitBreakerImpl) (state : State) (now : Int) :
    circuitBreakerImpl :=
  if cb.state = state then cb
  else
    let cb :=
      if state = .StateHalfOpen then
        { cb with
          halfOpenLeases := cb.config.PermittedNumberOfCallsInHalfOpenState
          halfOpenCompletedLeases := 0 }
      else cb
    { cb with state := state, transitionTime := now, window := cb.window.Reset }

/-- `circuitBreakerImpl.before`: returns the updated breaker and the
admission error, if any. -/
def circuitBreakerImpl.before (cb : circuitBreakerImpl) (now : Int) :
    circuitBreakerImpl × Option GoErr :=
  let cb :=
    if cb.state = .StateOpen ∧ now - cb.transitionTime ≥ cb.config.WaitDurationInOpenState then
      cb.setStateUnsafe .StateHalfOpen now
    else cb
  match cb.state with
  | .StateOpen => (cb, some ErrOpenState)
  | .StateHalfOpen =>
      if cb.halfOpenLeases ≤ 0 then (cb, some ErrHalfOpenState)
      else ({ cb with halfOpenLeases := cb.halfOpenLeases - 1 }, none)
  | _ => (cb, none)

/-- `circuitBreakerImpl.shouldFailCall`. -/
def circuitBreakerImpl.shouldFailCall (cb : circuitBreakerImpl) (result : GoVal)
    (err : Option GoErr) : Bool :=
  match err with
  | some e =>
      if (match cb.config.FailOnErrorPredicate with | some p => p e | none => false) then true
      else if cb.config.FailErrors.any (fun failErr => errIs e failErr) then true
      else if cb.config.IgnoreErrors.any (fun ignoreErr => errIs e ignoreErr) then false
      else true
  | none =>
      match cb.config.FailOnResultPredicate with
      | some p => p result
      | none => false

/-- `circuitBreakerImpl.areThresholdsExceededUnsafe` (the failure-rate and
slow-call-rate components of `CallRates` against the thresholds). -/
def circuitBreakerImpl.areThresholdsExceededUnsafe (cb : circuitBreakerImpl) : Bool :=
  let rates := cb.window.CallRates
  let failureRate := rates.2.2.1
  let slowRate := rates.2.2.2
  decide (failureRate ≥ cb.config.FailureRateThreshold) ||
    decide (slowRate ≥ cb.config.SlowCallRateThreshold)

/-- `circuitBreakerImpl.evaluateStateTransitionUnsafe`. -/
def circuitBreakerImpl.evaluateStateTransitionUnsafe (cb : circuitBreakerImpl) (now : Int) :
    circuitBreakerImpl :=
  match cb.state with
  | .StateClosed =>
      if cb.window.Size ≥ cb.config.MinimumNumberOfCalls ∧ cb.areThresholdsExceededUnsafe then
        cb.setStateUnsafe .StateOpen now
      else cb
  | .StateHalfOpen =>
      if cb.halfOpenCompletedLeases ≥ cb.config.PermittedNumberOfCallsInHalfOpenState then
        if cb.areThresholdsExceededUnsafe then cb.setStateUnsafe .StateOpen now
        else cb.setStateUnsafe .StateClosed now
      else cb
  | _ => cb

/-- The classification at the head of `circuitBreakerImpl.after`: the
`isFailure`/`isSlow` cross product. -/
def circuitBreakerImpl.classifyCall (cb : circuitBreakerImpl) (result : GoVal)
    (err : Option GoErr) (duration : Int) : CallOutcome :=
  let isFailure := cb.shouldFailCall result err
  let isSlow : Bool := decide (duration ≥ cb.config.SlowCallDurationThreshold)
  if isFailure && isSlow then .slowFailure
  else if isFailure then .failure
  else if isSlow then .slowSuccess
  else .success

/-- `circuitBreakerImpl.after`: classify, record to the window, account the
half-open lease completion, and evaluate transitions. -/
def circuitBreakerImpl.after (cb : circuitBreakerImpl) (result : GoVal) (err : Option GoErr)
    (duration : Int) (now : Int) : circuitBreakerImpl :=
  let outcome : CallOutcome := cb.classifyCall result err duration
  let cb := { cb with window := cb.window.RecordOutcome outcome }
  let cb :=
    if cb.state = .StateHalfOpen ∧ ¬IsCallNotPermittedError err then
      { cb with halfOpenCompletedLeases := cb.halfOpenCompletedLeases + 1 }
    else cb
  cb.evaluateStateTransitionUnsafe now

/-- `circuitbreaker.Execute`: run `before`; on rejection return the zero value
and the rejection error without touching `fn` or `after`; otherwise the pair
`(fnRes, fnErr)` stands for what `safeExecute(ctx, fn)` returned and `dur` for
the measured duration, and `after` runs at time `now + dur`. -/
def Circuitbreaker.Execute (cb : circuitBreakerImpl) (now : Int) (fnRes : GoVal)
    (fnErr : Option GoErr) (dur : Int) : circuitBreakerImpl × GoVal × Option GoErr :=
  match cb.before now with
  | (cb', some e) => (cb', default, some e)
  | (cb', none) => (cb'.after fnRes fnErr dur (now + dur), fnRes, fnErr)

/-- `retry.AttemptStatus`. -/
inductive AttemptStatus where
  | success
  | error
deriving DecidableEq, Repr

/-- `retry.AttemptFailureReason` (`empty` is Go's zero value `""`). -/
inductive AttemptFailureReason where
  | empty
  | error
  | timeout
  | canceled
  | result
deriving DecidableEq, Repr

/-- `retry.OutcomeStatus`. -/
inductive OutcomeStatus where
  | success
  | error
deriving DecidableEq, Repr

/-- `retry.OutcomeFailureReason` (`empty` is Go's zero value `""`). -/
inductive OutcomeFailureReason where
  | empty
  | exhausted
  | timeout
  | canceled
  | nonRetryable
deriving DecidableEq, Repr

/-- `retry.Attempt` (timestamps and durations omitted from telemetry fields
that no claim inspects are kept as integers). -/
structure Attempt where
  PolicyName : String
  Number : Int
  Timestamp : Int
  Duration : Int
  Status : AttemptStatus
  FailureReason : AttemptFailureReason
  Error : Option GoErr
  Retryable : Bool
deriving DecidableEq, Repr

/-- `retry.Outcome`. -/
structure Outcome where
  PolicyName : String
  TotalAttempts : Int
  TotalDuration : Int
  Status : OutcomeStatus
  FailureReason : OutcomeFailureReason
deriving DecidableEq, Repr

/-- `retry.RetryError`. -/
structure RetryError where
  Attempts : List Attempt
  TerminationError : Option GoErr
deriving DecidableEq, Repr

/-- `retry.ValidationError`. -/
structure ValidationError where
  Field : String
  Message : String
deriving DecidableEq, Repr

/-- `retry.Policy`. `backoff` maps the just-completed attempt number to a
wait in nanoseconds; it is `Option`-valued because Go's field is a nilable
interface checked by `Validate`. -/
structure Policy where
  name : String
  maxAttempts : Int
  attemptTimeout : Int
  backoff : Option (Int → Int)
  retryOnResultPredicate : Option (GoVal → Bool)
  retryOnErrorPredicate : Option (GoErr → Bool)
  retryErrors : List GoErr
  ignoreErrors : List GoErr

/-- `retry.Option` (an option mutates the policy being built). -/
def ROption : Type := Policy → Policy

/-- `retry.WithMaxAttempts`. -/
def WithMaxAttempts (attempts : Int) : ROption :=
  fun p => { p with maxAttempts := attempts }

/-- `retry.WithAttemptTimeout`. -/
def WithAttemptTimeout (timeout : Int) : ROption :=
  fun p => { p with attemptTimeout := timeout }

/-- `retry.WithBackoff`. -/
def WithBackoff (f : Int → Int) : ROption :=
  fun p => { p with backoff := some f }

/-- `retry.WithRetryOnResultPredicate`. -/
def WithRetryOnResultPredicate (predicate : GoVal → Bool) : ROption :=
  fun p => { p with retryOnResultPredicate := some predicate }

/-- `retry.WithRetryOnErrorPredicate`. -/
def WithRetryOnErrorPredicate (predicate : GoErr → Bool) : ROption :=
  fun p => { p with retryOnErrorPredicate := some predicate }

/-- `retry.WithRetryErrors`: assigns (replaces) the allowlist. -/
def WithRetryErrors (errs : List GoErr) : ROption :=
  fun p => { p with retryErrors := errs }

/-- `retry.WithIgnoreErrors`: assigns (replaces) the denylist. -/
def WithIgnoreErrors (errs : List GoErr) : ROption :=
  fun p => { p with ignoreErrors := errs }

/-- `backoff.Linear.Next` on integer nanoseconds. -/
def linearNext (interval : Int) : Int → Int :=
  fun attempt => attempt * interval

/-- `Policy.Validate`. -/
def Policy.Validate (p : Policy) : Option ValidationError :=
  if p.maxAttempts < 1 then some ⟨"maxAttempts", "must be at least 1"⟩
  else if p.backoff.isNone then some ⟨"backoff", "backoff must be set"⟩
  else none

/-- `retry.NewPolicy`: defaults (maxAttempts 3, Linear 100ms backoff), then
the options in order, then validation. -/
def NewPolicy (name : String) (options : List ROption) : Except ValidationError Policy :=
  let policy : Policy :=
    { name := name
      maxAttempts := 3
      attemptTimeout := 0
      backoff := some (linearNext 100000000)
      retryOnResultPredicate := none
      retryOnErrorPredicate := none
      retryErrors := []
      ignoreErrors := [] }
  let policy := options.foldl (fun p o => o p) policy
  match policy.Validate with
  | some err => .error err
  | none => .ok policy

/-- `Policy.ShouldRetryError`. -/
def Policy.ShouldRetryError (p : Policy) (err : Option GoErr) : Bool :=
  match err with
  | none => false
  | some e =>
      match p.retryOnErrorPredicate with
      | some predicate => predicate e
      | none =>
          if p.ignoreErrors.any (fun ignoreErr => errIs e ignoreErr) then false
          else if p.retryErrors.length > 0 then
            p.retryErrors.any (fun retryErr => errIs e retryErr)
          else true

/-- `retry.classifyAttemptFailure`. -/
def classifyAttemptFailure (err : Option GoErr) : AttemptFailureReason :=
  match err with
  | none => .empty
  | some e =>
      if errIs e contextDeadlineExceeded then .timeout
      else if errIs e contextCanceled then .canceled
      else .error

/-- `retry.classifyContextError`. -/
def classifyContextError (err : Option GoErr) : OutcomeFailureReason :=
  match err with
  | none => .empty
  | some e =>
      if errIs e contextDeadlineExceeded then .timeout
      else .canceled

/-- `retry.attemptOutcome`. -/
structure attemptOutcome where
  result : GoVal
  attempt : Attempt
  success : Bool
  retryable : Bool

/-- `retry.executeAttempt`: the pair `(fnRes, fnErr)` stands for what
`safeExecute(attemptCtx, fn)` returned for this attempt (a cancelled parent
context surfaces here as `fnErr = ctx.Err()`); the measured duration is kept
at zero since no claim inspects it. -/
def executeAttempt (p : Policy) (attemptNum : Int) (fnRes : GoVal) (fnErr : Option GoErr) :
    attemptOutcome :=
  let attempt : Attempt :=
    { PolicyName := p.name
      Number := attemptNum
      Timestamp := 0
      Duration := 0
      Status := .success
      FailureReason := .empty
      Error := none
      Retryable := false }
  let shouldRetryResult : Bool :=
    fnErr.isNone &&
      match p.retryOnResultPredicate with
      | some predicate => predicate fnRes
      | none => false
  if fnErr.isNone && !shouldRetryResult then
    { result := fnRes
      attempt := { attempt with Status := .success }
      success := true
      retryable := false }
  else
    let attempt := { attempt with Status := AttemptStatus.error }
    let attempt :=
      if shouldRetryResult then
        { attempt with
          Error := some ErrResultPredicateRetry
          FailureReason := .result
          Retryable := true }
      else
        { attempt with
          Error := fnErr
          FailureReason := classifyAttemptFailure fnErr
          Retryable := p.ShouldRetryError fnErr }
    { result := default
      attempt := attempt
      success := false
      retryable := attempt.Retryable }

/-- A metrics event recorded through the retry `Metrics` reporter. -/
inductive REvent where
  | attemptEv (a : Attempt)
  | outcomeEv (o : Outcome)
  | backoffEv (policyName : String) (attempt : Int) (duration : Int)
deriving DecidableEq, Repr

/-- The observable result of `retry.execute`: returned value, returned
`RetryError` (`none` on success), the final state of the deferred outcome
record, and the final attempt count. -/
structure LoopOut where
  value : GoVal
  rerr : Option RetryError
  status : OutcomeStatus
  reason : OutcomeFailureReason
  finalCount : Int
  events : List REvent

/-- The loop of `retry.execute`. `fnSeq n` stands for what
`safeExecute(attemptCtx, fn)` returns on attempt `n`; `waitSeq n` stands for
what the waiter returns after attempt `n` (`none` = wait elapsed, `some e` =
context done with error `e`). `acc` is `retryErr.Attempts` so far and
`events` the metrics events already reported. -/
def executeLoop (p : Policy) (fnSeq : Int → GoVal × Option GoErr) (waitSeq : Int → Option GoErr)
    (attemptCount : Int) (acc : List Attempt) (events : List REvent) : LoopOut :=
  let fr := fnSeq attemptCount
  let ao := executeAttempt p attemptCount fr.1 fr.2
  let events := events ++ [REvent.attemptEv ao.attempt]
  if ao.success then
    { value := ao.result, rerr := none, status := .success, reason := .empty
      finalCount := attemptCount, events := events }
  else
    let acc := acc ++ [ao.attempt]
    if !ao.retryable then
      { value := default, rerr := some ⟨acc, none⟩, status := .error, reason := .nonRetryable
        finalCount := attemptCount, events := events }
    else if _h : attemptCount ≥ p.maxAttempts then
      { value := default, rerr := some ⟨acc, none⟩, status := .error, reason := .exhausted
        finalCount := attemptCount, events := events }
    else
      let backoffDuration := (p.backoff.getD (fun _ => 0)) attemptCount
      match waitSeq attemptCount with
      | some waitErr =>
          { value := default, rerr := some ⟨acc, some waitErr⟩, status := .error
            reason := classifyContextError (some waitErr), finalCount := attemptCount
            events := events }
      | none =>
          executeLoop p fnSeq waitSeq (attemptCount + 1) acc
            (events ++ [REvent.backoffEv p.name (attemptCount + 1) backoffDuration])
termination_by (p.maxAttempts - attemptCount).toNat
decreasing_by simp_wf; omega

/-- `retry.execute` / `retry.Execute`: run the loop from attempt 1 and append
the single deferred `RecordOutcome` event. -/
def Retry.Execute (p : Policy) (fnSeq : Int → GoVal × Option GoErr)
    (waitSeq : Int → Option GoErr) : GoVal × Option RetryError × Outcome × List REvent :=
  let lo := executeLoop p fnSeq waitSeq 1 [] []
  let outcome : Outcome :=
    { PolicyName := p.name, TotalAttempts := lo.finalCount, TotalDuration := 0
      Status := lo.status, FailureReason := lo.reason }
  (lo.value, lo.rerr, outcome, lo.events ++ [REvent.outcomeEv outcome])

/-- Go's `time.Duration(f)` conversion from `float64`: truncation toward
zero (faithful for values within the `int64` range). Written on `num`/`den`
so that it computes; it equals `⌊q⌋` for `0 ≤ q` and `⌈q⌉` otherwise. -/
def goTrunc (q : ℚ) : Int :=
  if 0 ≤ q then q.num / (q.den : Int) else -((-q).num / (((-q).den : Nat) : Int))

/-- `backoff.Exponential`. -/
structure Exponential where
  initialInterval : Int
  maxInterval : Int
  multiplier : ℚ
  jitter : ℚ

/-- `backoff.ExponentialOption`. -/
def EOption : Type := Exponential → Exponential

/-- `backoff.WithInitialInterval`. -/
def WithInitialInterval (d : Int) : EOption :=
  fun e => { e with initialInterval := d }

/-- `backoff.WithMaxInterval`. -/
def WithMaxInterval (d : Int) : EOption :=
  fun e => { e with maxInterval := d }

/-- `backoff.WithMultiplier`. -/
def WithMultiplier (m : ℚ) : EOption :=
  fun e => { e with multiplier := m }

/-- `backoff.WithJitter`. -/
def WithJitter (j : ℚ) : EOption :=
  fun e => { e with jitter := j }

/-- `backoff.NewExponential` (defaults 500ms initial, 10s max, multiplier 2,
jitter 0), then the options in order. -/
def NewExponential (opts : List EOption) : Exponential :=
  opts.foldl (fun e o => o e)
    { initialInterval := 500000000
      maxInterval := 10000000000
      multiplier := 2
      jitter := 0 }

/-- `Exponential.Next`. `jitterSample` models the `rand.Float64()` draw in
`[0, 1)`; it is only consulted when `jitter > 0`. `float64` arithmetic is
modelled over `ℚ`. Faithful for `attempt ≥ 1` (at 0 the Go `uint`
subtraction would wrap where `ℕ` subtraction truncates). -/
def Exponential.Next (e : Exponential) (attempt : Nat) (jitterSample : ℚ) : Int :=
  let interval : ℚ := (e.initialInterval : ℚ) * e.multiplier ^ (attempt - 1)
  let interval :=
    if 0 < e.jitter then
      max 0 (interval + interval * e.jitter * (2 * jitterSample - 1))
    else interval
  let interval := if interval > (e.maxInterval : ℚ) then (e.maxInterval : ℚ) else interval
  goTrunc interval

/-- The retry-error predicate as the specification words it: nil never
retries; a configured error predicate is authoritative; otherwise the
denylist wins, then a non-empty allowlist must match, and an empty allowlist
defaults to retry. -/
def shouldRetrySpecification (p : Policy) (err : Option GoErr) : Bool :=
  match err with
  | none => false
  | some e =>
      match p.retryOnErrorPredicate with
      | some predicate => predicate e
      | none =>
          if p.ignoreErrors.any (fun t => errIs e t) then false
          else if p.retryErrors ≠ [] then p.retryErrors.any (fun t => errIs e t)
          else true

/-- The Closed → Open trip condition as the specification words it, on the
window as it stands after the outcome of this call has been recorded. -/
def tripCondition (cb : circuitBreakerImpl) (result : GoVal) (err : Option GoErr)
    (duration : Int) : Prop :=
  let w := cb.window.RecordOutcome (cb.classifyCall result err duration)
  w.Size ≥ cb.config.MinimumNumberOfCalls ∧
    (w.CallRates.2.2.1 ≥ cb.config.FailureRateThreshold ∨
     w.CallRates.2.2.2 ≥ cb.config.SlowCallRateThreshold)

/-- An operation on a sliding window: record one outcome, or reset. -/
inductive WinOp where
  | record (outcome : CallOutcome)
  | reset
deriving DecidableEq, Repr

/-- Apply one window operation. -/
def CountWindow.applyOp (w : CountWindow) : WinOp → CountWindow
  | .record outcome => w.RecordOutcome outcome
  | .reset => w.Reset

/-- Apply a sequence of window operations, oldest first. -/
def CountWindow.applyOps (w : CountWindow) (ops : List WinOp) : CountWindow :=
  ops.foldl CountWindow.applyOp w

/-- Contribution of one ring slot to `successCount`. -/
def slotSucc : Option CallOutcome → Int
  | some .success => 1
  | some .slowSuccess => 1
  | some .failure => 0
  | some .slowFailure => 0
  | none => 0

/-- Contribution of one ring slot to `failureCount`. -/
def slotFail : Option CallOutcome → Int
  | some .failure => 1
  | some .slowFailure => 1
  | some .success => 0
  | some .slowSuccess => 0
  | none => 0

/-- Contribution of one ring slot to `slowCallCount`. -/
def slotSlow : Option CallOutcome → Int
  | some .slowSuccess => 1
  | some .slowFailure => 1
  | some .success => 0
  | some .failure => 0
  | none => 0

/-- The window's counters agree with the multiset of outcomes in its ring. -/
def windowCoherent (w : CountWindow) : Prop :=
  w.successCount = (w.slots.map slotSucc).sum ∧
  w.failureCount = (w.slots.map slotFail).sum ∧
  w.slowCallCount = (w.slots.map slotSlow).sum

/-- Number of `RecordOutcome` events among a retry metrics event list. -/
def outcomeCount (events : List REvent) : Nat :=
  (events.filter (fun e => match e with | .outcomeEv _ => true | _ => false)).length

/-- The attempts of a list are numbered contiguously `1..length`. -/
def numbered (acc : List Attempt) : Prop :=
  ∀ (i : Nat) (h : i < acc.length), (acc.get ⟨i, h⟩).Number = (i : Int) + 1
/-- A breaker fixture sitting Open since time 0 (default config). -/
def cbOpenW : circuitBreakerImpl :=
  { name := "openW"
    window := NewCountWindow 2
    config := defaultConfig
    state := .StateOpen
    transitionTime := 0
    halfOpenCompletedLeases := 0
    halfOpenLeases := 0 }

/-- A breaker fixture sitting HalfOpen with no leases left. -/
def cbHalfW : circuitBreakerImpl :=
  { name := "halfW"
    window := NewCountWindow 2
    config := defaultConfig
    state := .StateHalfOpen
    transitionTime := 0
    halfOpenCompletedLeases := 0
    halfOpenLeases := 0 }

/-- A minimal valid retry policy fixture (only `maxAttempts` 3 and a linear
backoff, as `NewPolicy` defaults would give). -/
def pW : Policy :=
  { name := "w"
    maxAttempts := 3
    attemptTimeout := 0
    backoff := some (linearNext 100000000)
    retryOnResultPredicate := none
    retryOnErrorPredicate := none
    retryErrors := []
    ignoreErrors := [] }

/-- C5: `Policy.ShouldRetryError` computes exactly the specification's
decision procedure: false on nil, the predicate's verdict when present,
otherwise the denylist, then a non-empty allowlist, then default true. -/
theorem C5_shouldRetryError_follows_spec (p : Policy) (err : Option GoErr) :
    p.ShouldRetryError err = shouldRetrySpecification p err := by
  cases err with
  | none => rfl
  | some e =>
      simp only [Policy.ShouldRetryError, shouldRetrySpecification]
      cases p.retryOnErrorPredicate with
      | some predicate => rfl
      | none =>
          by_cases hig : p.ignoreErrors.any (fun t => errIs e t)
          · simp [hig]
          · simp only [hig, if_false, Bool.false_eq_true]
            rcases hr : p.retryErrors with _ | ⟨a, l⟩
            · simp
            · simp [List.length_pos]

/-- C10: `WithRetryErrors` and `WithIgnoreErrors` assign rather than append:
the last application wins, both on a raw policy and through `NewPolicy`. -/
theorem C10_error_list_options_replace :
    (∀ (p : Policy) (l : List GoErr), (WithRetryErrors l p).retryErrors = l) ∧
    (∀ (p : Policy) (l : List GoErr), (WithIgnoreErrors l p).ignoreErrors = l) ∧
    (∀ (name : String) (l1 l2 : List GoErr),
        Except.map Policy.retryErrors
          (NewPolicy name [WithRetryErrors l1, WithRetryErrors l2]) = .ok l2) ∧
    (∀ (name : String) (m1 m2 : List GoErr),
        Except.map Policy.ignoreErrors
          (NewPolicy name [WithIgnoreErrors m1, WithIgnoreErrors m2]) = .ok m2) := by
  exact ⟨fun p l => rfl, fun p l => rfl, fun name l1 l2 => rfl, fun name m1 m2 => rfl⟩

/-- C9 counterexample: `NewExponential` accepts a multiplier below 1, and the
resulting jitter-free sequence is strictly decreasing: `Next 1 > Next 2`. -/
theorem C9_monotonicity_counterexample :
    (NewExponential [WithInitialInterval 4, WithMaxInterval 100,
        WithMultiplier (1/2)]).jitter = 0 ∧
    ¬((NewExponential [WithInitialInterval 4, WithMaxInterval 100,
        WithMultiplier (1/2)]).Next 1 0 ≤
      (NewExponential [WithInitialInterval 4, WithMaxInterval 100,
        WithMultiplier (1/2)]).Next 2 0) := by
  have h1 : (NewExponential [WithInitialInterval 4, WithMaxInterval 100,
      WithMultiplier (1/2)]).Next 1 0 = 4 := by with_unfolding_all rfl
  have h2 : (NewExponential [WithInitialInterval 4, WithMaxInterval 100,
      WithMultiplier (1/2)]).Next 2 0 = 2 := by with_unfolding_all rfl
  refine ⟨rfl, ?_⟩
  rw [h1, h2]
  omega

/-- C1, evaluated at the failing input: a breaker built with
`WithMetricsOnlyMode` has the flag set in its config, yet starts Closed,
trips Open after a single recorded failure, and its next `before()` returns
`ErrOpenState` — the flag is never consulted by `New`, `before` or `after`. -/
theorem C1_metricsOnly_breaker_still_blocks :
    (Circuitbreaker.New "mo" [WithMetricsOnlyMode, WithMinimumNumberOfCalls 1,
        WithWindow (NewCountWindow 4)]).config.MetricsOnlyMode = true ∧
    ((Circuitbreaker.Execute (Circuitbreaker.New "mo" [WithMetricsOnlyMode,
        WithMinimumNumberOfCalls 1, WithWindow (NewCountWindow 4)])
        0 default (some (.sentinel 9)) 0).1.state = .StateOpen ∧
     (((Circuitbreaker.Execute (Circuitbreaker.New "mo" [WithMetricsOnlyMode,
        WithMinimumNumberOfCalls 1, WithWindow (NewCountWindow 4)])
        0 default (some (.sentinel 9)) 0).1.before 1).2 = some ErrOpenState)) := by
  refine ⟨rfl, ?_, ?_⟩
  · with_unfolding_all rfl
  · with_unfolding_all rfl

lemma goTrunc_eq_floor_ceil (q : ℚ) : goTrunc q = if 0 ≤ q then ⌊q⌋ else ⌈q⌉ := by
  rw [goTrunc]
  split_ifs with hq
  · rw [Rat.floor_def]
  · rw [show ((-q).num / ((-q).den : Int)) = ⌊-q⌋ from (Rat.floor_def).symm]
    rw [Int.floor_neg, neg_neg]

lemma goTrunc_mono {q r : ℚ} (h : q ≤ r) : goTrunc q ≤ goTrunc r := by
  rw [goTrunc_eq_floor_ceil, goTrunc_eq_floor_ceil]
  split_ifs with hq hr hr
  · exact Int.floor_le_floor h
  · exact absurd (hq.trans h) hr
  · calc ⌈q⌉ ≤ 0 := Int.ceil_le.mpr (by exact_mod_cast le_of_not_le hq)
      _ ≤ ⌊r⌋ := Int.floor_nonneg.mpr hr
  · exact Int.ceil_le_ceil h

lemma goTrunc_le_int {q : ℚ} {n : Int} (h : q ≤ (n : ℚ)) : goTrunc q ≤ n := by
  rw [goTrunc_eq_floor_ceil]
  split_ifs with hq
  · exact le_trans (Int.floor_le_floor h) (le_of_eq (Int.floor_intCast n))
  · exact Int.ceil_le.mpr h

lemma gated_clamp_eq_min (x M : ℚ) : (if x > M then M else x) = min x M := by
  split_ifs with h
  · exact (min_eq_right h.le).symm
  · exact (min_eq_left (le_of_not_lt h)).symm

/-- C9 (amended): for an Exponential with jitter 0, a nonnegative initial
interval and a multiplier ≥ 1, `Next` is monotone in the attempt ordinal
(from 1 on) and never exceeds `maxInterval`. -/
theorem C9_exponential_monotone_bounded (e : Exponential) (s : ℚ)
    (hjit : e.jitter = 0) (hinit : 0 ≤ e.initialInterval) (hmult : 1 ≤ e.multiplier)
    (a b : Nat) (ha : 1 ≤ a) (hab : a ≤ b) :
    e.Next a s ≤ e.Next b s ∧ e.Next b s ≤ e.maxInterval := by
  have hinitq : (0:ℚ) ≤ (e.initialInterval : ℚ) := by exact_mod_cast hinit
  have hmono : (e.initialInterval : ℚ) * e.multiplier ^ (a-1) ≤
      (e.initialInterval : ℚ) * e.multiplier ^ (b-1) :=
    mul_le_mul_of_nonneg_left (pow_le_pow_right₀ hmult (Nat.sub_le_sub_right hab 1)) hinitq
  unfold Exponential.Next
  rw [hjit]
  simp only [lt_irrefl, if_false, gated_clamp_eq_min]
  constructor
  · exact goTrunc_mono (min_le_min_right _ hmono)
  · exact goTrunc_le_int (min_le_right _ _)

theorem C9_exponential_monotone_bounded_witness :
    (NewExponential []).jitter = 0 ∧ 0 ≤ (NewExponential []).initialInterval ∧
    1 ≤ (NewExponential []).multiplier ∧ 1 ≤ 1 ∧ 1 ≤ 3 ∧
    ((NewExponential []).Next 1 0 ≤ (NewExponential []).Next 3 0 ∧
      (NewExponential []).Next 3 0 ≤ (NewExponential []).maxInterval) :=
  ⟨rfl, by norm_num [NewExponential], by norm_num [NewExponential], le_refl 1,
    by norm_num,
    C9_exponential_monotone_bounded (NewExponential []) 0 rfl
      (by norm_num [NewExponential]) (by norm_num [NewExponential]) 1 3
      (le_refl 1) (by norm_num)⟩

lemma coherent_new (n : Nat) : windowCoherent (NewCountWindow n) := by
  refine ⟨?_, ?_, ?_⟩ <;>
    simp [NewCountWindow, List.map_replicate, List.sum_replicate, slotSucc, slotFail, slotSlow]

lemma coherent_record {w : CountWindow} (hw : windowCoherent w) (o : CallOutcome) :
    windowCoherent (w.RecordOutcome o) ∧ (w.RecordOutcome o).slots.length = w.slots.length := by
  obtain ⟨hs, hf, hl⟩ := hw
  rcases hslots : w.slots with _ | ⟨old, rest⟩
  · refine ⟨⟨?_, ?_, ?_⟩, ?_⟩ <;> simp_all [CountWindow.RecordOutcome, hslots]
  · rw [hslots] at hs hf hl
    simp only [List.map_cons, List.sum_cons] at hs hf hl
    rcases old with _ | oldOutcome
    · simp only [slotSucc, slotFail, slotSlow] at hs hf hl
      refine ⟨⟨?_, ?_, ?_⟩, ?_⟩ <;>
        cases o <;>
        simp [CountWindow.RecordOutcome, hslots, CountWindow.incrementOutcome,
          windowCoherent, slotSucc, slotFail, slotSlow] <;>
        omega
    · cases oldOutcome <;>
        (simp only [slotSucc, slotFail, slotSlow] at hs hf hl
         refine ⟨⟨?_, ?_, ?_⟩, ?_⟩ <;>
           cases o <;>
           simp [CountWindow.RecordOutcome, hslots, CountWindow.incrementOutcome,
             CountWindow.decrementOutcome, windowCoherent, slotSucc, slotFail, slotSlow] <;>
           omega)

lemma coherent_reset (w : CountWindow) :
    windowCoherent w.Reset ∧ w.Reset.slots.length = w.slots.length := by
  refine ⟨⟨?_, ?_, ?_⟩, ?_⟩ <;>
    simp [CountWindow.Reset, List.map_replicate, List.sum_replicate, slotSucc, slotFail, slotSlow]

lemma coherent_applyOps {w : CountWindow} (hw : windowCoherent w) (ops : List WinOp) :
    windowCoherent (w.applyOps ops) ∧ (w.applyOps ops).slots.length = w.slots.length := by
  induction ops generalizing w with
  | nil => exact ⟨hw, rfl⟩
  | cons op rest ih =>
      rcases op with o | _
      · obtain ⟨h1, h2⟩ := coherent_record hw o
        obtain ⟨h3, h4⟩ := ih h1
        exact ⟨h3, by simpa [CountWindow.applyOps, CountWindow.applyOp, h2] using h4.trans h2⟩
      · obtain ⟨h1, h2⟩ := coherent_reset w
        obtain ⟨h3, h4⟩ := ih h1
        exact ⟨h3, by simpa [CountWindow.applyOps, CountWindow.applyOp, h2] using h4.trans h2⟩

lemma slot_sum_bounds (l : List (Option CallOutcome)) :
    0 ≤ (l.map slotSucc).sum ∧ 0 ≤ (l.map slotFail).sum ∧ 0 ≤ (l.map slotSlow).sum ∧
    (l.map slotSlow).sum ≤ (l.map slotSucc).sum + (l.map slotFail).sum ∧
    (l.map slotSucc).sum + (l.map slotFail).sum ≤ (l.length : Int) := by
  induction l with
  | nil => simp
  | cons hd tl ih =>
      rcases hd with _ | o <;>
        [skip; cases o] <;>
        · simp only [List.map_cons, List.sum_cons, List.length_cons, slotSucc, slotFail, slotSlow]
          push_cast
          omega

lemma rate_bounds {c t : Int} (hc : 0 ≤ c) (hct : c ≤ t) (ht : 0 < t) :
    0 ≤ (c : ℚ) / (t : ℚ) * 100 ∧ (c : ℚ) / (t : ℚ) * 100 ≤ 100 := by
  have htq : (0:ℚ) < (t:ℚ) := by exact_mod_cast ht
  constructor
  · exact mul_nonneg (div_nonneg (by exact_mod_cast hc) htq.le) (by norm_num)
  · rw [div_mul_eq_mul_div, div_le_iff₀ htq]
    have hq : (c:ℚ) ≤ (t:ℚ) := by exact_mod_cast hct
    linarith

/-- C8: after any sequence of `RecordOutcome`/`Reset` operations on a fresh
`CountWindow` of positive capacity `n`, the counters sum to `Size`, the slow
count never exceeds `Size`, `Size` never exceeds the capacity, all three
rates are within `[0, 100]` (all zero on an empty window), and `Reset`
zeroes all counters and the size. -/
theorem C8_window_invariants (n : Nat) (ops : List WinOp) (w : CountWindow)
    (hn : 0 < n) (hw : w = (NewCountWindow n).applyOps ops) :
    w.successCount + w.failureCount = w.Size ∧
    w.slowCallCount ≤ w.Size ∧
    w.Size ≤ (n : Int) ∧
    (0 ≤ w.CallRates.2.1 ∧ w.CallRates.2.1 ≤ 100) ∧
    (0 ≤ w.CallRates.2.2.1 ∧ w.CallRates.2.2.1 ≤ 100) ∧
    (0 ≤ w.CallRates.2.2.2 ∧ w.CallRates.2.2.2 ≤ 100) ∧
    (w.Size = 0 → w.CallRates = (0, 0, 0, 0)) ∧
    (w.Reset.successCount = 0 ∧ w.Reset.failureCount = 0 ∧
      w.Reset.slowCallCount = 0 ∧ w.Reset.Size = 0) := by
  obtain ⟨hcoh, hlen⟩ := coherent_applyOps (coherent_new n) ops
  rw [← hw] at hcoh hlen
  obtain ⟨hs, hf, hl⟩ := hcoh
  have hlen' : w.slots.length = n := by simpa [NewCountWindow] using hlen
  obtain ⟨b1, b2, b3, b4, b5⟩ := slot_sum_bounds w.slots
  rw [← hs] at b1 b4 b5
  rw [← hf] at b2 b4 b5
  rw [← hl] at b3 b4
  rw [hlen'] at b5
  have hsize : w.Size = w.successCount + w.failureCount := rfl
  refine ⟨rfl, by omega, by omega, ?_, ?_, ?_, ?_, ?_⟩
  · by_cases h0 : w.Size = 0
    · simp [CountWindow.CallRates, h0]
    · have hpos : 0 < w.Size := by omega
      simp only [CountWindow.CallRates, h0, if_false]
      exact rate_bounds b1 (by omega) hpos
  · by_cases h0 : w.Size = 0
    · simp [CountWindow.CallRates, h0]
    · have hpos : 0 < w.Size := by omega
      simp only [CountWindow.CallRates, h0, if_false]
      exact rate_bounds b2 (by omega) hpos
  · by_cases h0 : w.Size = 0
    · simp [CountWindow.CallRates, h0]
    · have hpos : 0 < w.Size := by omega
      simp only [CountWindow.CallRates, h0, if_false]
      exact rate_bounds b3 (by omega) hpos
  · intro h0
    simp [CountWindow.CallRates, h0]
  · simp [CountWindow.Reset, CountWindow.Size]

theorem C8_window_invariants_witness :
    0 < 2 ∧
    (let w := (NewCountWindow 2).applyOps [.record .slowFailure, .record .success]
     w.successCount + w.failureCount = w.Size ∧
     w.slowCallCount ≤ w.Size ∧
     w.Size ≤ (2 : Int) ∧
     (0 ≤ w.CallRates.2.1 ∧ w.CallRates.2.1 ≤ 100) ∧
     (0 ≤ w.CallRates.2.2.1 ∧ w.CallRates.2.2.1 ≤ 100) ∧
     (0 ≤ w.CallRates.2.2.2 ∧ w.CallRates.2.2.2 ≤ 100) ∧
     (w.Size = 0 → w.CallRates = (0, 0, 0, 0)) ∧
     (w.Reset.successCount = 0 ∧ w.Reset.failureCount = 0 ∧
       w.Reset.slowCallCount = 0 ∧ w.Reset.Size = 0)) :=
  ⟨by decide,
    C8_window_invariants 2 [.record .slowFailure, .record .success] _ (by decide) rfl⟩

lemma setStateUnsafe_state (cb : circuitBreakerImpl) (s : State) (now : Int) :
    (cb.setStateUnsafe s now).state = s := by
  rw [circuitBreakerImpl.setStateUnsafe]
  split_ifs with h1 <;> first | exact h1 | rfl

lemma areThresholds_iff (cb : circuitBreakerImpl) :
    cb.areThresholdsExceededUnsafe = true ↔
      (cb.window.CallRates.2.2.1 ≥ cb.config.FailureRateThreshold ∨
       cb.window.CallRates.2.2.2 ≥ cb.config.SlowCallRateThreshold) := by
  simp [circuitBreakerImpl.areThresholdsExceededUnsafe]

lemma evaluate_closed_state (cb : circuitBreakerImpl) (now : Int)
    (hst : cb.state = .StateClosed) :
    ((cb.evaluateStateTransitionUnsafe now).state = .StateOpen ↔
      (cb.window.Size ≥ cb.config.MinimumNumberOfCalls ∧
        (cb.window.CallRates.2.2.1 ≥ cb.config.FailureRateThreshold ∨
         cb.window.CallRates.2.2.2 ≥ cb.config.SlowCallRateThreshold))) ∧
    (¬(cb.window.Size ≥ cb.config.MinimumNumberOfCalls ∧
        (cb.window.CallRates.2.2.1 ≥ cb.config.FailureRateThreshold ∨
         cb.window.CallRates.2.2.2 ≥ cb.config.SlowCallRateThreshold)) →
      (cb.evaluateStateTransitionUnsafe now).state = .StateClosed) := by
  rw [circuitBreakerImpl.evaluateStateTransitionUnsafe, hst]
  by_cases hcond : cb.window.Size ≥ cb.config.MinimumNumberOfCalls ∧
      (cb.window.CallRates.2.2.1 ≥ cb.config.FailureRateThreshold ∨
       cb.window.CallRates.2.2.2 ≥ cb.config.SlowCallRateThreshold)
  · rw [if_pos ⟨hcond.1, (areThresholds_iff cb).mpr hcond.2⟩]
    simp [setStateUnsafe_state, hcond]
  · rw [if_neg (fun hc => hcond ⟨hc.1, (areThresholds_iff cb).mp hc.2⟩)]
    simp [hst, hcond]

lemma after_closed_eq (cb : circuitBreakerImpl) (result : GoVal) (err : Option GoErr)
    (duration now : Int) (hst : cb.state = .StateClosed) :
    cb.after result err duration now =
      ({ cb with window :=
          cb.window.RecordOutcome (cb.classifyCall result err duration)
        } : circuitBreakerImpl).evaluateStateTransitionUnsafe now := by
  rw [circuitBreakerImpl.after]
  have hne : ¬(({ cb with window :=
      cb.window.RecordOutcome (cb.classifyCall result err duration)
    } : circuitBreakerImpl).state = .StateHalfOpen ∧ ¬IsCallNotPermittedError err) := by
    rintro ⟨h, -⟩
    rw [show ({ cb with window :=
        cb.window.RecordOutcome (cb.classifyCall result err duration)
      } : circuitBreakerImpl).state = cb.state from rfl, hst] at h
    cases h
  rw [if_neg hne]

/-- C2: from the Closed state, recording an outcome through `after` trips the
breaker to Open exactly when the post-record window has reached
`MinimumNumberOfCalls` and its failure rate or slow-call rate is at or above
the respective threshold; otherwise it remains Closed. -/
theorem C2_closed_to_open_iff (cb : circuitBreakerImpl) (result : GoVal) (err : Option GoErr)
    (duration now : Int) (hst : cb.state = .StateClosed) :
    ((cb.after result err duration now).state = .StateOpen ↔
      tripCondition cb result err duration) ∧
    (¬tripCondition cb result err duration →
      (cb.after result err duration now).state = .StateClosed) := by
  rw [after_closed_eq cb result err duration now hst, tripCondition]
  exact evaluate_closed_state _ now hst

theorem C2_closed_to_open_iff_witness :
    (Circuitbreaker.New "c2" []).state = .StateClosed ∧
    ((((Circuitbreaker.New "c2" []).after 0 (some (.sentinel 9)) 0 0).state = .StateOpen ↔
       tripCondition (Circuitbreaker.New "c2" []) 0 (some (.sentinel 9)) 0) ∧
     (¬tripCondition (Circuitbreaker.New "c2" []) 0 (some (.sentinel 9)) 0 →
       ((Circuitbreaker.New "c2" []).after 0 (some (.sentinel 9)) 0 0).state =
         .StateClosed)) :=
  ⟨rfl, C2_closed_to_open_iff (Circuitbreaker.New "c2" []) 0 (some (.sentinel 9)) 0 0 rfl⟩

/-- C3: a rejection from `before` short-circuits `Execute` — the returned
error is the rejection, the returned value is the zero value, the breaker is
exactly `before`'s result (no `after`, and the output is independent of what
`fn` would return); `before` rejects with `ErrOpenState` while Open with the
wait not yet elapsed and with `ErrHalfOpenState` while HalfOpen with no
leases left; and when Open with the wait elapsed, `before` first moves the
breaker to HalfOpen. -/
theorem C3_rejection_semantics :
    (∀ (cb : circuitBreakerImpl) (now : Int) (fnRes : GoVal) (fnErr : Option GoErr)
        (dur : Int) (e : GoErr), (cb.before now).2 = some e →
        Circuitbreaker.Execute cb now fnRes fnErr dur = ((cb.before now).1, default, some e)) ∧
    (∀ (cb : circuitBreakerImpl) (now : Int), cb.state = .StateOpen →
        now - cb.transitionTime < cb.config.WaitDurationInOpenState →
        cb.before now = (cb, some ErrOpenState)) ∧
    (∀ (cb : circuitBreakerImpl) (now : Int), cb.state = .StateHalfOpen →
        cb.halfOpenLeases ≤ 0 →
        cb.before now = (cb, some ErrHalfOpenState)) ∧
    (∀ (cb : circuitBreakerImpl) (now : Int), cb.state = .StateOpen →
        now - cb.transitionTime ≥ cb.config.WaitDurationInOpenState →
        (cb.before now).1.state = .StateHalfOpen) := by
  refine ⟨?_, ?_, ?_, ?_⟩
  · intro cb now fnRes fnErr dur e h
    rcases hb : cb.before now with ⟨cb', oerr⟩
    rw [hb] at h
    simp only at h
    subst h
    rw [Circuitbreaker.Execute, hb]
  · intro cb now hst hlt
    rw [circuitBreakerImpl.before]
    rw [if_neg (by rintro ⟨-, hge⟩; omega)]
    rw [hst]
  · intro cb now hst hleases
    rw [circuitBreakerImpl.before]
    rw [if_neg (by rintro ⟨h, -⟩; rw [hst] at h; cases h)]
    rw [hst]
    simp only [if_pos hleases]
  · intro cb now hst hge
    rw [circuitBreakerImpl.before]
    rw [if_pos ⟨hst, hge⟩]
    rw [setStateUnsafe_state]
    split_ifs <;> simp [setStateUnsafe_state]

theorem C3_rejection_semantics_witness :
    ((cbOpenW.before 0).2 = some ErrOpenState ∧
      Circuitbreaker.Execute cbOpenW 0 7 none 0 =
        ((cbOpenW.before 0).1, default, some ErrOpenState)) ∧
    (cbOpenW.state = .StateOpen ∧
      0 - cbOpenW.transitionTime < cbOpenW.config.WaitDurationInOpenState ∧
      cbOpenW.before 0 = (cbOpenW, some ErrOpenState)) ∧
    (cbHalfW.state = .StateHalfOpen ∧ cbHalfW.halfOpenLeases ≤ 0 ∧
      cbHalfW.before 0 = (cbHalfW, some ErrHalfOpenState)) ∧
    (cbOpenW.state = .StateOpen ∧
      (70000000000 : Int) - cbOpenW.transitionTime ≥ cbOpenW.config.WaitDurationInOpenState ∧
      (cbOpenW.before 70000000000).1.state = .StateHalfOpen) := by
  have h1 : (cbOpenW.before 0).2 = some ErrOpenState := by with_unfolding_all rfl
  exact ⟨⟨h1, C3_rejection_semantics.1 cbOpenW 0 7 none 0 ErrOpenState h1⟩,
    ⟨rfl, by decide, C3_rejection_semantics.2.1 cbOpenW 0 rfl (by decide)⟩,
    ⟨rfl, by decide, C3_rejection_semantics.2.2.1 cbHalfW 0 rfl (by decide)⟩,
    ⟨rfl, by decide, C3_rejection_semantics.2.2.2 cbOpenW 70000000000 rfl (by decide)⟩⟩

lemma executeAttempt_predicate_retry {p : Policy} {pred : GoVal → Bool} (k : Int) (res : GoVal)
    (hp : p.retryOnResultPredicate = some pred) (hres : pred res = true) :
    (executeAttempt p k res none).success = false ∧
    (executeAttempt p k res none).attempt.Status = .error ∧
    (executeAttempt p k res none).attempt.Error = some ErrResultPredicateRetry ∧
    (executeAttempt p k res none).attempt.FailureReason = .result ∧
    (executeAttempt p k res none).attempt.Retryable = true ∧
    (executeAttempt p k res none).retryable = true := by
  simp [executeAttempt, hp, hres]

lemma executeAttempt_success {p : Policy} (k : Int) (res : GoVal)
    (hp : ∀ pred, p.retryOnResultPredicate = some pred → pred res = false) :
    (executeAttempt p k res none).success = true ∧
    (executeAttempt p k res none).attempt.Status = .success ∧
    (executeAttempt p k res none).result = res := by
  rcases hpred : p.retryOnResultPredicate with _ | pred
  · simp [executeAttempt, hpred]
  · simp [executeAttempt, hpred, hp pred hpred]

lemma executeLoop_success_step {p : Policy} {fnSeq : Int → GoVal × Option GoErr}
    {waitSeq : Int → Option GoErr} {k : Int} {acc : List Attempt} {events : List REvent}
    {res : GoVal} (hfn : fnSeq k = (res, none))
    (hp : ∀ pred, p.retryOnResultPredicate = some pred → pred res = false) :
    executeLoop p fnSeq waitSeq k acc events =
      { value := res, rerr := none, status := .success, reason := .empty
        finalCount := k
        events := events ++ [.attemptEv (executeAttempt p k res none).attempt] } := by
  obtain ⟨h1, h2, h3⟩ := executeAttempt_success (p := p) k res hp
  rw [executeLoop, hfn]
  simp [h1, h3]

/-- C6: an attempt whose call returns no error is turned into a retryable
failure with the `ErrResultPredicateRetry` sentinel, reason `result`, exactly
when the configured result predicate selects retry; otherwise it is a
success, and the loop returns the value with a success outcome. -/
theorem C6_result_predicate_attempts :
    (∀ (p : Policy) (pred : GoVal → Bool) (k : Int) (res : GoVal),
        p.retryOnResultPredicate = some pred → pred res = true →
        (executeAttempt p k res none).success = false ∧
        (executeAttempt p k res none).attempt.Status = .error ∧
        (executeAttempt p k res none).attempt.Error = some ErrResultPredicateRetry ∧
        (executeAttempt p k res none).attempt.FailureReason = .result ∧
        (executeAttempt p k res none).attempt.Retryable = true) ∧
    (∀ (p : Policy) (k : Int) (res : GoVal),
        (∀ pred, p.retryOnResultPredicate = some pred → pred res = false) →
        (executeAttempt p k res none).success = true ∧
        (executeAttempt p k res none).attempt.Status = .success ∧
        (executeAttempt p k res none).result = res) ∧
    (∀ (p : Policy) (fnSeq : Int → GoVal × Option GoErr) (waitSeq : Int → Option GoErr)
        (k : Int) (acc : List Attempt) (events : List REvent) (res : GoVal),
        fnSeq k = (res, none) →
        (∀ pred, p.retryOnResultPredicate = some pred → pred res = false) →
        (executeLoop p fnSeq waitSeq k acc events).value = res ∧
        (executeLoop p fnSeq waitSeq k acc events).rerr = none ∧
        (executeLoop p fnSeq waitSeq k acc events).status = .success) ∧
    (∀ (p : Policy) (fnSeq : Int → GoVal × Option GoErr) (waitSeq : Int → Option GoErr)
        (res : GoVal),
        fnSeq 1 = (res, none) →
        (∀ pred, p.retryOnResultPredicate = some pred → pred res = false) →
        (Retry.Execute p fnSeq waitSeq).1 = res ∧
        (Retry.Execute p fnSeq waitSeq).2.1 = none ∧
        (Retry.Execute p fnSeq waitSeq).2.2.1.Status = .success) := by
  refine ⟨?_, ?_, ?_, ?_⟩
  · intro p pred k res hp hres
    obtain ⟨a, b, c, d, e, f⟩ := executeAttempt_predicate_retry (p := p) k res hp hres
    exact ⟨a, b, c, d, e⟩
  · intro p k res hp
    exact executeAttempt_success k res hp
  · intro p fnSeq waitSeq k acc events res hfn hp
    rw [executeLoop_success_step hfn hp]
    exact ⟨rfl, rfl, rfl⟩
  · intro p fnSeq waitSeq res hfn hp
    rw [Retry.Execute]
    rw [executeLoop_success_step hfn hp]
    exact ⟨rfl, rfl, rfl⟩

theorem C6_result_predicate_attempts_witness :
    (({ pW with retryOnResultPredicate := some (fun v => v == 3) } : Policy).retryOnResultPredicate
        = some (fun v => v == 3) ∧
      (fun v => v == 3) (3 : GoVal) = true ∧
      (executeAttempt { pW with retryOnResultPredicate := some (fun v => v == 3) } 1 3 none).success = false ∧
      (executeAttempt { pW with retryOnResultPredicate := some (fun v => v == 3) } 1 3 none).attempt.Status = .error ∧
      (executeAttempt { pW with retryOnResultPredicate := some (fun v => v == 3) } 1 3 none).attempt.Error =
        some ErrResultPredicateRetry ∧
      (executeAttempt { pW with retryOnResultPredicate := some (fun v => v == 3) } 1 3 none).attempt.FailureReason = .result ∧
      (executeAttempt { pW with retryOnResultPredicate := some (fun v => v == 3) } 1 3 none).attempt.Retryable = true) ∧
    ((executeAttempt pW 1 5 none).success = true ∧
      (executeAttempt pW 1 5 none).attempt.Status = .success ∧
      (executeAttempt pW 1 5 none).result = 5) ∧
    ((executeLoop pW (fun _ => (5, none)) (fun _ => none) 1 [] []).value = 5 ∧
      (executeLoop pW (fun _ => (5, none)) (fun _ => none) 1 [] []).rerr = none ∧
      (executeLoop pW (fun _ => (5, none)) (fun _ => none) 1 [] []).status = .success) ∧
    ((Retry.Execute pW (fun _ => (5, none)) (fun _ => none)).1 = 5 ∧
      (Retry.Execute pW (fun _ => (5, none)) (fun _ => none)).2.1 = none ∧
      (Retry.Execute pW (fun _ => (5, none)) (fun _ => none)).2.2.1.Status = .success) := by
  have hvac : ∀ pred, pW.retryOnResultPredicate = some pred → pred (5 : GoVal) = false :=
    fun pred h => Option.noConfusion h
  obtain ⟨a, b, c, d, e⟩ :=
    C6_result_predicate_attempts.1 { pW with retryOnResultPredicate := some (fun v => v == 3) }
      (fun v => v == 3) 1 3 rfl rfl
  exact ⟨⟨rfl, rfl, a, b, c, d, e⟩,
    C6_result_predicate_attempts.2.1 pW 1 5 hvac,
    C6_result_predicate_attempts.2.2.1 pW (fun _ => (5, none)) (fun _ => none) 1 [] [] 5 rfl hvac,
    C6_result_predicate_attempts.2.2.2 pW (fun _ => (5, none)) (fun _ => none) 5 rfl hvac⟩

/-- C7: when the inter-attempt wait is interrupted (the waiter returns a
context error), the loop returns at once: the aggregated error carries the
attempts so far plus the just-failed attempt and has `TerminationError` set
to the cancellation cause, the outcome failure reason is `timeout` for
DeadlineExceeded and `canceled` otherwise, and no further attempt (or
backoff event) is recorded. -/
theorem C7_backoff_cancellation (p : Policy) (fnSeq : Int → GoVal × Option GoErr)
    (waitSeq : Int → Option GoErr) (k : Int) (acc : List Attempt) (events : List REvent)
    (we : GoErr)
    (hfail : (executeAttempt p k (fnSeq k).1 (fnSeq k).2).success = false)
    (hret : (executeAttempt p k (fnSeq k).1 (fnSeq k).2).retryable = true)
    (hk : k < p.maxAttempts)
    (hwait : waitSeq k = some we) :
    executeLoop p fnSeq waitSeq k acc events =
      { value := default
        rerr := some
          { Attempts := acc ++ [(executeAttempt p k (fnSeq k).1 (fnSeq k).2).attempt]
            TerminationError := some we }
        status := .error
        reason := if errIs we contextDeadlineExceeded then .timeout else .canceled
        finalCount := k
        events := events ++
          [.attemptEv (executeAttempt p k (fnSeq k).1 (fnSeq k).2).attempt] } := by
  rw [executeLoop]
  simp only [hfail, hret, Bool.not_true, Bool.false_eq_true, if_false,
    show ¬(k ≥ p.maxAttempts) from not_le.mpr hk, dite_false, hwait, classifyContextError]

theorem C7_backoff_cancellation_witness :
    ((executeAttempt pW 1 ((fun (_ : Int) => ((0:GoVal), some (GoErr.sentinel 9))) 1).1
        ((fun (_ : Int) => ((0:GoVal), some (GoErr.sentinel 9))) 1).2).success = false) ∧
    ((executeAttempt pW 1 ((fun (_ : Int) => ((0:GoVal), some (GoErr.sentinel 9))) 1).1
        ((fun (_ : Int) => ((0:GoVal), some (GoErr.sentinel 9))) 1).2).retryable = true) ∧
    ((1:Int) < pW.maxAttempts) ∧
    ((fun (_ : Int) => some contextCanceled) 1 = some contextCanceled) ∧
    (executeLoop pW (fun _ => ((0:GoVal), some (GoErr.sentinel 9)))
        (fun _ => some contextCanceled) 1 [] [] =
      { value := default
        rerr := some
          { Attempts := [] ++ [(executeAttempt pW 1
              ((fun (_ : Int) => ((0:GoVal), some (GoErr.sentinel 9))) 1).1
              ((fun (_ : Int) => ((0:GoVal), some (GoErr.sentinel 9))) 1).2).attempt]
            TerminationError := some contextCanceled }
        status := .error
        reason := if errIs contextCanceled contextDeadlineExceeded then .timeout else .canceled
        finalCount := 1
        events := [] ++ [.attemptEv (executeAttempt pW 1
            ((fun (_ : Int) => ((0:GoVal), some (GoErr.sentinel 9))) 1).1
            ((fun (_ : Int) => ((0:GoVal), some (GoErr.sentinel 9))) 1).2).attempt] }) :=
  ⟨rfl, rfl, by decide, rfl,
    C7_backoff_cancellation pW (fun _ => ((0:GoVal), some (GoErr.sentinel 9)))
      (fun _ => some contextCanceled) 1 [] [] contextCanceled rfl rfl (by decide) rfl⟩

lemma executeAttempt_number (p : Policy) (k : Int) (r : GoVal) (e : Option GoErr) :
    (executeAttempt p k r e).attempt.Number = k := by
  rw [executeAttempt]
  split_ifs <;> rfl

lemma outcomeCount_append_attempt (ev : List REvent) (a : Attempt) :
    outcomeCount (ev ++ [REvent.attemptEv a]) = outcomeCount ev := by
  simp [outcomeCount, List.filter_append]

lemma outcomeCount_append_backoff (ev : List REvent) (s : String) (k : Int) (d : Int) :
    outcomeCount (ev ++ [REvent.backoffEv s k d]) = outcomeCount ev := by
  simp [outcomeCount, List.filter_append]

lemma outcomeCount_append_outcome (ev : List REvent) (o : Outcome) :
    outcomeCount (ev ++ [REvent.outcomeEv o]) = outcomeCount ev + 1 := by
  simp [outcomeCount, List.filter_append]

lemma numbered_append {acc : List Attempt} {a : Attempt} (h : numbered acc)
    (ha : a.Number = (acc.length : Int) + 1) : numbered (acc ++ [a]) := by
  intro i hi
  rw [List.length_append, List.length_singleton] at hi
  by_cases hlt : i < acc.length
  · rw [List.get_append i hlt]
    exact h i hlt
  · have hieq : i = acc.length := by omega
    subst hieq
    have hlen : acc.length < (acc ++ [a]).length := by
      simp
    have hget : (acc ++ [a]).get ⟨acc.length, hlen⟩ = a := by
      simp
    rw [hget, ha]

lemma executeLoop_invariant (p : Policy) (fnSeq : Int → GoVal × Option GoErr)
    (waitSeq : Int → Option GoErr) :
    ∀ (fuel : Nat) (k : Int) (acc : List Attempt) (events : List REvent),
      (p.maxAttempts - k).toNat = fuel →
      1 ≤ k → k ≤ p.maxAttempts →
      (acc.length : Int) = k - 1 →
      numbered acc →
      (∀ re, (executeLoop p fnSeq waitSeq k acc events).rerr = some re →
          ((re.Attempts.length : Int) ≤ p.maxAttempts ∧ numbered re.Attempts)) ∧
      outcomeCount (executeLoop p fnSeq waitSeq k acc events).events = outcomeCount events := by
  intro fuel
  induction fuel with
  | zero =>
      intro k acc events hfuel hk1 hkmax hlen hnum
      have hnumext : numbered (acc ++ [(executeAttempt p k (fnSeq k).1 (fnSeq k).2).attempt]) :=
        numbered_append hnum (by rw [executeAttempt_number]; omega)
      have hlenext : ((acc ++ [(executeAttempt p k (fnSeq k).1 (fnSeq k).2).attempt]).length : Int) ≤
          p.maxAttempts := by
        rw [List.length_append, List.length_singleton]
        push_cast
        omega
      rw [executeLoop]
      by_cases hsucc : (executeAttempt p k (fnSeq k).1 (fnSeq k).2).success
      · simp only [hsucc, if_true]
        refine ⟨fun re h => by simp at h, ?_⟩
        simp [outcomeCount_append_attempt]
      · simp only [hsucc, Bool.false_eq_true, if_false]
        by_cases hret : (executeAttempt p k (fnSeq k).1 (fnSeq k).2).retryable
        · simp only [hret, Bool.not_true, Bool.false_eq_true, if_false]
          have hge : k ≥ p.maxAttempts := by omega
          simp only [hge, dite_true, dif_pos]
          refine ⟨fun re h => ?_, by simp [outcomeCount_append_attempt]⟩
          simp only [Option.some_inj] at h
          subst h
          exact ⟨hlenext, hnumext⟩
        · simp only [hret, Bool.not_false, if_true]
          refine ⟨fun re h => ?_, by simp [outcomeCount_append_attempt]⟩
          simp only [Option.some_inj] at h
          subst h
          exact ⟨hlenext, hnumext⟩
  | succ n ih =>
      intro k acc events hfuel hk1 hkmax hlen hnum
      have hnumext : numbered (acc ++ [(executeAttempt p k (fnSeq k).1 (fnSeq k).2).attempt]) :=
        numbered_append hnum (by rw [executeAttempt_number]; omega)
      have hlenext : ((acc ++ [(executeAttempt p k (fnSeq k).1 (fnSeq k).2).attempt]).length : Int) ≤
          p.maxAttempts := by
        rw [List.length_append, List.length_singleton]
        push_cast
        omega
      have hklt : k < p.maxAttempts := by omega
      rw [executeLoop]
      by_cases hsucc : (executeAttempt p k (fnSeq k).1 (fnSeq k).2).success
      · simp only [hsucc, if_true]
        refine ⟨fun re h => by simp at h, ?_⟩
        simp [outcomeCount_append_attempt]
      · simp only [hsucc, Bool.false_eq_true, if_false]
        by_cases hret : (executeAttempt p k (fnSeq k).1 (fnSeq k).2).retryable
        · simp only [hret, Bool.not_true, Bool.false_eq_true, if_false]
          have hnge : ¬(k ≥ p.maxAttempts) := not_le.mpr hklt
          simp only [hnge, dite_false, dif_neg]
          rcases hws : waitSeq k with _ | we
          · simp only [hws]
            obtain ⟨ih1, ih2⟩ := ih (k+1) (acc ++ [(executeAttempt p k (fnSeq k).1 (fnSeq k).2).attempt])
              ((events ++ [.attemptEv (executeAttempt p k (fnSeq k).1 (fnSeq k).2).attempt]) ++
                [.backoffEv p.name (k+1) ((p.backoff.getD (fun _ => 0)) k)])
              (by omega) (by omega) (by omega)
              (by rw [List.length_append, List.length_singleton]; push_cast; omega)
              hnumext
            refine ⟨ih1, ?_⟩
            rw [ih2, outcomeCount_append_backoff, outcomeCount_append_attempt]
          · simp only [hws]
            refine ⟨fun re h => ?_, by simp [outcomeCount_append_attempt]⟩
            simp only [Option.some_inj] at h
            subst h
            exact ⟨hlenext, hnumext⟩
        · simp only [hret, Bool.not_false, if_true]
          refine ⟨fun re h => ?_, by simp [outcomeCount_append_attempt]⟩
          simp only [Option.some_inj] at h
          subst h
          exact ⟨hlenext, hnumext⟩

/-- C4: for a valid policy (`maxAttempts ≥ 1`), whenever `Execute` returns a
`RetryError` its attempts number at most `maxAttempts` and are numbered
contiguously `1..N`; and exactly one outcome record is reported, on every
path. -/
theorem C4_attempts_bounded_one_outcome (p : Policy) (fnSeq : Int → GoVal × Option GoErr)
    (waitSeq : Int → Option GoErr) (hmax : 1 ≤ p.maxAttempts) :
    (∀ re, (Retry.Execute p fnSeq waitSeq).2.1 = some re →
        ((re.Attempts.length : Int) ≤ p.maxAttempts ∧ numbered re.Attempts)) ∧
    outcomeCount (Retry.Execute p fnSeq waitSeq).2.2.2 = 1 := by
  obtain ⟨h1, h2⟩ := executeLoop_invariant p fnSeq waitSeq (p.maxAttempts - 1).toNat 1 [] []
    rfl le_rfl hmax (by simp) (fun i hi => absurd hi (Nat.not_lt_zero i))
  constructor
  · intro re h
    exact h1 re h
  · simp only [Retry.Execute]
    rw [outcomeCount_append_outcome, h2]
    rfl

theorem C4_attempts_bounded_one_outcome_witness :
    1 ≤ pW.maxAttempts ∧
    ((∀ re, (Retry.Execute pW (fun _ => ((0:GoVal), some (GoErr.sentinel 9)))
          (fun _ => none)).2.1 = some re →
        ((re.Attempts.length : Int) ≤ pW.maxAttempts ∧ numbered re.Attempts)) ∧
      outcomeCount (Retry.Execute pW (fun _ => ((0:GoVal), some (GoErr.sentinel 9)))
        (fun _ => none)).2.2.2 = 1) :=
  ⟨by decide,
    C4_attempts_bounded_one_outcome pW (fun _ => ((0:GoVal), some (GoErr.sentinel 9)))
      (fun _ => none) (by decide)⟩
